import Mathlib

/-!
Shallow embedding of `openquake/server/views.py` (job submission, dispatch,
log reading and result export HTTP handlers) together with proofs about the
behaviour claimed in the specification.

Conventions of the embedding:
* The Django ORM database is a record of lists (`Db`).  `Model.objects.get`
  is `djGet`, which distinguishes the `DoesNotExist` and
  `MultipleObjectsReturned` outcomes exactly like Django; `filter` is
  `List.filter`; `order_by` is an insertion sort on the ordering key.
* Python exceptions escaping a handler are modelled by `Except Exc`; an
  `HttpResponse` actually returned is `.ok`.
* Response bodies are modelled pre-serialisation (the data that is passed to
  `json.dumps`, or the raw text of the response), not as JSON text.
* The file system is a record of directory names and `(path, content)`
  pairs; `tempfile.mkdtemp` takes the fresh directory name as an explicit
  argument, `shutil.move` and `shutil.rmtree` act on the record.
* External collaborators (the exporter `core.export`, the zip extractor
  `readinput.extract_from_zip`, the engine loader `job_from_file`) are
  oracle parameters of the handlers, as the spec treats them (interfaces
  only).
* Strings reaching the handlers from URL captures or request dictionaries
  are modelled by `PyVal` (`None`, `int`, `str`) where Python truthiness
  matters.
-/

/-- Data a response body is built from, before `json.dumps`. -/
inductive Body
  /-- Empty body, e.g. a bare `HttpResponseNotFound()`. -/
  | empty
  /-- Raw text body: exported file data, or a 404 message. -/
  | text (s : String)
  /-- A JSON list of strings (tracebacks, diagnostics). -/
  | jlist (ls : List String)
  /-- A JSON list of rows of strings (log slices). -/
  | jtable (rows : List (List String))
  /-- The `calc` listing: a JSON list of job-summary objects. -/
  | jcalcs (xs : List (Nat × String × String × Bool × String × String))
  /-- The `calc` listing collapsed to a single job-summary object. -/
  | jcalc (x : Nat × String × String × Bool × String × String)
  /-- `run_calc` success: the oqparam dict updated with job_id and status. -/
  | jparams (kvs : List (String × String)) (job_id : Nat) (status : String)
deriving DecidableEq

/-- A Django `HttpResponse`, restricted to the fields the handlers set. -/
structure HttpResp where
  status : Nat := 200
  body : Body := .empty
  contentType : String := "text/html"
  contentLength : Option Nat := none
  contentDisposition : Option String := none
deriving DecidableEq

/-- Python exceptions that can escape the handlers in this module. -/
inductive Exc
  | objectDoesNotExist
  | multipleObjects
  | ioError
  | valueError
deriving DecidableEq

deriving instance DecidableEq for Except

/-- `HttpResponseNotFound()` with no message. -/
def http404 : HttpResp := { status := 404 }

/-- The `application/json` content type constant `JSON` of the module. -/
def JSONct : String := "application/json"

/-- `DEFAULT_EXPORT_TYPE = 'xml'`. -/
def DEFAULT_EXPORT_TYPE : String := "xml"

/-- `EXPORT_CONTENT_TYPE_MAP`. -/
def EXPORT_CONTENT_TYPE_MAP : List (String × String) :=
  [("xml", "application/xml"), ("geojson", "application/json")]

/-- `DEFAULT_CONTENT_TYPE = 'text/plain'`. -/
def DEFAULT_CONTENT_TYPE : String := "text/plain"

/-- Outcome of a Django `Model.objects.get(...)` call. -/
inductive GetRes (α : Type)
  | found (a : α)
  | notFound
  | multiple
deriving DecidableEq

/-- Django `objects.get`: the unique row satisfying `p`, `DoesNotExist` when
there is none, `MultipleObjectsReturned` when there are several. -/
def djGet {α : Type} (l : List α) (p : α → Bool) : GetRes α :=
  match l.filter p with
  | [] => .notFound
  | [a] => .found a
  | _ :: _ :: _ => .multiple

/-- Split a character list at every occurrence of `c` (kernel-computable
counterpart of `String.splitOn` for a one-character separator). -/
def splitOnChar (c : Char) : List Char → List (List Char)
  | [] => [[]]
  | x :: xs =>
    let r := splitOnChar c xs
    if x == c then [] :: r
    else
      match r with
      | [] => [[x]]
      | y :: ys => (x :: y) :: ys

/-- The newline character. -/
def newlineChar : Char := Char.ofNat 10

/-- The path separator character. -/
def slashChar : Char := Char.ofNat 47

/-- Python `str.splitlines` restricted to `\n` separators: split on
newlines, without a trailing empty line for a trailing newline. -/
def splitlines (s : String) : List String :=
  let parts := (splitOnChar newlineChar s.data).map String.mk
  match parts.getLast? with
  | some "" => parts.dropLast
  | _ => parts

/-- Boolean list-prefix test (kernel-computable). -/
def listPre : List Char → List Char → Bool
  | [], _ => true
  | _ :: _, [] => false
  | a :: as, b :: bs => a == b && listPre as bs

/-- Kernel-computable counterpart of `String.startsWith`. -/
def strStartsWith (s pre : String) : Bool := listPre pre.data s.data

/-- Accumulator loop of `strToNat`. -/
def strToNatCore : List Char → Nat → Option Nat
  | [], acc => some acc
  | c :: cs, acc =>
      if 48 ≤ c.toNat && c.toNat ≤ 57 then strToNatCore cs (acc * 10 + (c.toNat - 48))
      else Option.none

/-- Python `int(s)` on a string: the value of a non-empty all-digit
string, `ValueError` (`none`) otherwise. -/
def strToNat (s : String) : Option Nat :=
  match s.data with
  | [] => Option.none
  | l => strToNatCore l 0

/-- A Python value arriving in a handler argument slot: `None`, an integer
or a string.  Only non-negative integers occur (Django querysets reject
negative slice indices). -/
inductive PyVal
  | none
  | int (n : Nat)
  | str (s : String)
deriving DecidableEq

/-- Python truthiness of a `PyVal`. -/
def truthy : PyVal → Bool
  | .none => false
  | .int n => n != 0
  | .str s => s != ""

/-- Python `a or b`. -/
def pyOr (a b : PyVal) : PyVal := if truthy a then a else b

/-- The `int()` conversion Django applies to a slice bound: `None` is an
open bound, a digit string is parsed, a non-numeric string raises
`ValueError` (outer `none`). -/
def pyBound : PyVal → Option (Option Nat)
  | .none => some Option.none
  | .int n => some (some n)
  | .str s => (strToNat s).map some

/-- Python list slicing `l[start:stop]` for non-negative bounds, `stop =
none` meaning no upper bound. -/
def listSlice {α : Type} (l : List α) (start : Nat) (stop : Option Nat) : List α :=
  match stop with
  | Option.none => l.drop start
  | some st => (l.take st).drop start

/-- Python truthiness of an `Option String` (as returned by `dict.get`). -/
def optTruthy : Option String → Bool
  | some s => s != ""
  | Option.none => false

/-- The path components of `p` (split at every slash). -/
def pathParts (p : String) : List String :=
  (splitOnChar slashChar p.data).map String.mk

/-- `os.path.basename`. -/
def basename (p : String) : String :=
  match (pathParts p).getLast? with
  | some s => s
  | Option.none => ""

/-- `os.path.dirname`. -/
def dirname (p : String) : String :=
  String.intercalate "/" ((pathParts p).dropLast)

/-- `os.path.join a b` for the cases occurring here: an absolute second
component discards the first. -/
def pathJoin (a b : String) : String :=
  if strStartsWith b "/" then b else a ++ "/" ++ b

/-- A single quote character, used by Python `repr` of strings. -/
def pyQuote : String := String.singleton (Char.ofNat 39)

/-- Python `str` of a tuple of strings, e.g. `('job_risk.ini', 'job.ini')`. -/
def pyStrTuple (xs : List String) : String :=
  "(" ++ String.intercalate ", " (xs.map (fun x => pyQuote ++ x ++ pyQuote)) ++ ")"

/-- The file system: existing directories and regular files with contents. -/
structure Fs where
  dirs : List String
  files : List (String × String)
deriving DecidableEq

/-- `shutil.move src dst`: remove the entry at `src` and write its content
at `dst` (overwriting).  A missing source is left to hypotheses (Python
would raise). -/
def fsMove (fs : Fs) (src dst : String) : Fs :=
  match fs.files.lookup src with
  | Option.none => fs
  | some c => { fs with files := (dst, c) :: fs.files.filter (fun p => p.1 != src) }

/-- `shutil.rmtree d`: remove the directory `d` and every file under it. -/
def rmtree (fs : Fs) (d : String) : Fs :=
  { dirs := fs.dirs.filter (fun x => x != d),
    files := fs.files.filter (fun p => !strStartsWith p.1 (d ++ "/")) }

/-- An `OqJob` row, restricted to the fields the handlers read.
`oqparam` stands for the opaque parameter blob `calc.get_oqparam()`. -/
structure OqJob where
  id : Nat
  status : String
  job_type : String
  is_running : Bool
  relevant : Bool
  user_name : String
  hazard_calculation : Option Nat
  oqparam : List (String × String)
deriving DecidableEq

/-- A `Log` row. -/
structure LogEntry where
  job_id : Nat
  timestamp : String
  level : String
  process : String
  message : String
deriving DecidableEq

/-- An `Output` row; `oq_job` is the related job object (a non-null
foreign key, so it is carried inline). -/
structure Output where
  id : Nat
  output_type : String
  display_name : String
  oq_job : OqJob
deriving DecidableEq

/-- A `JobParam` row; `job` is the related job object. -/
structure JobParam where
  id : Nat
  name : String
  value : String
  job : OqJob
deriving DecidableEq

/-- The database visible to the handlers. -/
structure Db where
  jobs : List OqJob
  logs : List LogEntry
  outputs : List Output
  jobparams : List JobParam
deriving DecidableEq

/-- `log_to_json`: convert a log record into a list of strings. -/
def log_to_json (log : LogEntry) : List String :=
  [log.timestamp.take 22, log.level, log.process, log.message]

/-- `get_traceback`: 404 when the job does not exist, then an *unguarded*
`Log.objects.get(job_id=calc_id, level='CRITICAL')` whose `DoesNotExist`
or `MultipleObjectsReturned` escapes the handler. -/
def get_traceback (db : Db) (calc_id : Nat) : Except Exc HttpResp :=
  match djGet db.jobs (fun j => j.id == calc_id) with
  | .notFound => .ok http404
  | .multiple => .error .multipleObjects
  | .found _ =>
    match djGet db.logs (fun l => l.job_id == calc_id && l.level == "CRITICAL") with
    | .found lg =>
        .ok { status := 200, body := .jlist (splitlines lg.message), contentType := JSONct }
    | .notFound => .error .objectDoesNotExist
    | .multiple => .error .multipleObjects

/-- The rows computed by `get_log_slice`: `start or 0`, `stop or None`,
then `Log.objects.filter(job_id=calc_id)[start:stop]`.  `none` is the
`ValueError` of a non-numeric bound.  `filter` never raises
`DoesNotExist`, so no other failure is possible. -/
def logRows (db : Db) (calc_id : Nat) (start stop : PyVal) : Option (List LogEntry) :=
  let start := pyOr start (.int 0)
  let stop := pyOr stop .none
  match pyBound start, pyBound stop with
  | some sa, some sb =>
      some (listSlice (db.logs.filter (fun l => l.job_id == calc_id)) (sa.getD 0) sb)
  | _, _ => none

/-- `get_log_slice`.  The `except ObjectDoesNotExist` branch of the source
is unreachable: `filter` and queryset slicing never raise it. -/
def get_log_slice (db : Db) (calc_id : Nat) (start stop : PyVal) : Except Exc HttpResp :=
  match logRows db calc_id start stop with
  | Option.none => .error .valueError
  | some rows =>
      .ok { status := 200, body := .jtable (rows.map log_to_json), contentType := JSONct }

/-- Modelled from the spec: the external validation helper
`openquake.commonlib.valid.boolean` (not under `src/`), parsing a request
string into a boolean filter value. -/
def valid_boolean (s : String) : Bool :=
  s == "true" || s == "1"

/-- The `job_type` filter of `_get_calcs`:
`job__hazard_calculation__isnull = (job_type == 'hazard')`. -/
def jobTypePass (q : List (String × String)) (jp : JobParam) : Bool :=
  match q.lookup "job_type" with
  | Option.none => true
  | some jt => (jp.job.hazard_calculation == Option.none) == (jt == "hazard")

/-- The `is_running` filter of `_get_calcs`. -/
def isRunningPass (q : List (String × String)) (jp : JobParam) : Bool :=
  match q.lookup "is_running" with
  | Option.none => true
  | some v => jp.job.is_running == valid_boolean v

/-- The `relevant` filter of `_get_calcs`. -/
def relevantPass (q : List (String × String)) (jp : JobParam) : Bool :=
  match q.lookup "relevant" with
  | Option.none => true
  | some v => jp.job.relevant == valid_boolean v

/-- The optional `job_id = id` filter of `_get_calcs`. -/
def idPass (id : Option Nat) (jp : JobParam) : Bool :=
  match id with
  | Option.none => true
  | some i => jp.job.id == i

/-- The base queryset of `_get_calcs`:
`JobParam.objects.filter(name='description', job__user_name=user_name)`. -/
def baseSel (user_name : String) (jp : JobParam) : Bool :=
  jp.name == "description" && jp.job.user_name == user_name

/-- The full conjunction of queryset conditions accumulated by
`_get_calcs`. -/
def calcsSel (q : List (String × String)) (user_name : String) (id : Option Nat)
    (jp : JobParam) : Bool :=
  baseSel user_name jp && idPass id jp && jobTypePass q jp
    && isRunningPass q jp && relevantPass q jp

/-- `order_by('-id')`: descending `JobParam.id`. -/
def descId (a b : JobParam) : Prop := b.id ≤ a.id

instance : DecidableRel descId := fun a b => Nat.decLe b.id a.id

instance : IsTotal JobParam descId :=
  ⟨fun a b => Nat.le_total b.id a.id⟩

instance : IsTrans JobParam descId :=
  ⟨fun _ _ _ h1 h2 => Nat.le_trans h2 h1⟩

/-- The summary row `(jp.job.id, jp.job.status, jp.job.job_type,
jp.job.is_running, jp.value)` reported by `_get_calcs`. -/
def calcRow (jp : JobParam) : Nat × String × String × Bool × String :=
  (jp.job.id, jp.job.status, jp.job.job_type, jp.job.is_running, jp.value)

/-- `_get_calcs`: the `description` job parameters of the requesting user,
through the optional conjunctive filters, ordered by descending row id
(the SQL evaluation of the accumulated queryset). -/
def _get_calcs (db : Db) (q : List (String × String)) (user_name : String)
    (id : Option Nat) : List (Nat × String × String × Bool × String) :=
  (List.insertionSort descId (db.jobparams.filter (calcsSel q user_name id))).map calcRow

/-- `urlparse.urljoin` for the base/relative shapes used here. -/
def urljoin (base rel : String) : String := base ++ "/" ++ rel

/-- One entry of the `calc` listing response. -/
def calcEntry (base_url : String) (r : Nat × String × String × Bool × String) :
    Nat × String × String × Bool × String × String :=
  (r.1, r.2.1, r.2.2.1, r.2.2.2.1, r.2.2.2.2, urljoin base_url ("v1/calc/" ++ toString r.1))

/-- The `calc` view (named `calc_view`: `calc` is a Lean keyword).  When
`id` is given, `[response_data] = response_data` destructures, raising
`ValueError` unless there is exactly one row. -/
def calc_view (db : Db) (q : List (String × String)) (base_url user_name : String)
    (id : Option Nat) : Except Exc HttpResp :=
  let calc_data := _get_calcs db q user_name id
  let response_data := calc_data.map (calcEntry base_url)
  match id with
  | Option.none => .ok { status := 200, body := .jcalcs response_data, contentType := JSONct }
  | some _ =>
    match response_data with
    | [x] => .ok { status := 200, body := .jcalc x, contentType := JSONct }
    | _ => .error .valueError

/-- `export_type = etype or DEFAULT_EXPORT_TYPE` (Python `or`: an empty
string also falls back to the default). -/
def resolveExportType (etype : Option String) : String :=
  match etype with
  | some s => if s != "" then s else DEFAULT_EXPORT_TYPE
  | Option.none => DEFAULT_EXPORT_TYPE

/-- The download-flag block of `get_result`: `download = False;
if dload is None: if etype is not None: download = True;
else: if dload == "true": download = True`. -/
def resolveDownload (etype dload : Option String) : Bool :=
  match dload with
  | Option.none => etype.isSome
  | some d => d == "true"

/-- `get_result`.  `tmpname` is the fresh directory `tempfile.mkdtemp()`
returns; `exporter` is the external `core.export(result_id, tmpdir,
export_type)` returning the exported path or `None`; `expFiles` are the
files the exporter writes.  Returns the handler outcome together with the
final file system — note that the `try/finally` around the read is entered
only after the `exported is None` early return. -/
def get_result (db : Db) (etype dload : Option String) (result_id : Nat)
    (tmpname : String)
    (exporter : Nat → String → String → Option String)
    (expFiles : List (String × String))
    (fs : Fs) : Except Exc HttpResp × Fs :=
  match djGet db.outputs (fun o => o.id == result_id) with
  | .notFound => (.ok http404, fs)
  | .multiple => (.error .multipleObjects, fs)
  | .found output =>
    if output.oq_job.status != "complete" then (.ok http404, fs)
    else
      let export_type := resolveExportType etype
      let download := resolveDownload etype dload
      let fs1 : Fs := { fs with dirs := tmpname :: fs.dirs }
      let fs2 : Fs := { fs1 with files := expFiles ++ fs1.files }
      match exporter result_id tmpname export_type with
      | Option.none =>
          (.ok { status := 404,
                 body := .text ("export_type=" ++ export_type
                   ++ " is not supported for output_type=" ++ output.output_type) },
           fs2)
      | some exported =>
          let content_type := (EXPORT_CONTENT_TYPE_MAP.lookup export_type).getD
            DEFAULT_CONTENT_TYPE
          let fname := "output-" ++ toString result_id ++ "-" ++ basename exported
          match fs2.files.lookup exported with
          | Option.none => (.error .ioError, rmtree fs2 tmpname)
          | some data =>
              (.ok { status := 200, body := .text data, contentType := content_type,
                     contentLength := some data.length,
                     contentDisposition :=
                       if download then some ("attachment; filename=" ++ fname)
                       else Option.none },
               rmtree fs2 tmpname)

/-- One entry of `request.FILES`: the dictionary key, the client-supplied
file name and the transient upload path `temporary_file_path()`. -/
structure UploadedFile where
  key : String
  name : String
  tmpPath : String
deriving DecidableEq

/-- The `for each_file in request.FILES.values()` loop of `_prepare_job`:
move each file into the workspace under its upload name and collect the
paths of the files whose name is among the candidates, in order. -/
def movedFiles (temp_dir : String) (candidates : List String) :
    Fs → List UploadedFile → Fs × List String
  | fs, [] => (fs, [])
  | fs, f :: rest =>
      let new_path := temp_dir ++ "/" ++ f.name
      let fs1 := fsMove fs f.tmpPath new_path
      let out := movedFiles temp_dir candidates fs1 rest
      (out.1, if candidates.contains f.name then new_path :: out.2 else out.2)

/-- `_prepare_job`: create the workspace `temp_dir` (`tempfile.mkdtemp`),
then either delegate an `archive` upload to the external
`readinput.extract_from_zip` or move every uploaded file into the
workspace, returning the candidate job files. -/
def _prepare_job (fs : Fs) (temp_dir : String) (files : List UploadedFile)
    (candidates : List String)
    (extractZip : UploadedFile → List String → List String) : Fs × List String :=
  let fs1 : Fs := { fs with dirs := temp_dir :: fs.dirs }
  match files.find? (fun f => f.key == "archive") with
  | Option.none => movedFiles temp_dir candidates fs1 files
  | some arch => (fs1, extractZip arch candidates)

/-- The outcome of `safely_call`: the value, or the traceback text of a
captured exception. -/
inductive SafeRes (α : Type)
  | ok (a : α)
  | exc (einfo : String)
deriving DecidableEq

/-- Observable side effects of the dispatch path. -/
inductive Effect
  /-- `tasks.update_calculation(callback_url, status=..., einfo=...)`. -/
  | updateCalculation (callback_url : Option String) (status : String) (einfo : String)
  /-- `executor.submit(tasks.safely_call, tasks.run_calc, job.id, temp_dir,
  callback_url, foreign_calc_id, dbname, logfile)`. -/
  | enqueued (job_id : Nat) (temp_dir : String)
      (callback_url foreign_calc_id : Option String) (dbname : String)
  /-- `logging.error(msg)`. -/
  | logError (msg : String)
deriving DecidableEq

/-- `submit_job`: resolve the job definition through the external loader
(`oq_engine.job_from_file` under `safely_call`); on failure notify the
callback and re-raise, on success enqueue the execution. -/
def submit_job (loader : String → SafeRes OqJob) (job_file temp_dir dbname : String)
    (callback_url foreign_calc_id : Option String) : SafeRes OqJob × List Effect :=
  let ini := pathJoin temp_dir job_file
  match loader ini with
  | .exc tb => (.exc tb, [.updateCalculation callback_url "failed" tb])
  | .ok job => (.ok job, [.enqueued job.id temp_dir callback_url foreign_calc_id dbname])

/-- What a dispatch call produces: the handler outcome, the recorded side
effects in order, and the final file system. -/
structure RunOut where
  resp : Except Exc HttpResp
  effects : List Effect
  fs : Fs
deriving DecidableEq

/-- The candidate job-definition names selected by `run_calc` from the
presence of risk routing parameters. -/
def runCandidates (post : List (String × String)) : List String :=
  let is_risk := optTruthy (post.lookup "hazard_output_id")
    || optTruthy (post.lookup "hazard_job_id")
  if is_risk then ["job_risk.ini", "job.ini"] else ["job_hazard.ini", "job.ini"]

/-- The zero-candidate diagnostic of `run_calc`:
`'Could not find any file of the form %s' % str(candidates)`. -/
def noCandMsg (candidates : List String) : String :=
  "Could not find any file of the form " ++ pyStrTuple candidates

/-- `run_calc`.  `tmpname` is the fresh workspace name; `stagingExc`
injects a file-system exception captured by `safely_call(_prepare_job, …)`
(`none` when staging runs normally); `loader` is the external engine
loader.  Mirrors the source branch by branch: staging exception → 500 plus
callback notification; no candidate file → 500 and only a log line; loader
failure inside `submit_job` → callback notification, the re-raised error is
caught and reported as 500; success → enqueue and report the job. -/
def run_calc (db : Db) (fs : Fs) (tmpname : String)
    (post : List (String × String)) (files : List UploadedFile)
    (extractZip : UploadedFile → List String → List String)
    (stagingExc : Option String)
    (loader : String → SafeRes OqJob) : RunOut :=
  let callback_url := post.lookup "callback_url"
  let foreign_calc_id := post.lookup "foreign_calculation_id"
  let candidates := runCandidates post
  match stagingExc with
  | some einfo =>
      { resp := .ok { status := 500, body := .jlist (splitlines einfo),
                      contentType := JSONct },
        effects := [.updateCalculation callback_url "failed" einfo], fs := fs }
  | Option.none =>
    let staged := _prepare_job fs tmpname files candidates extractZip
    match staged.2 with
    | [] =>
        let msg := noCandMsg candidates
        { resp := .ok { status := 500, body := .jlist [msg], contentType := JSONct },
          effects := [.logError msg], fs := staged.1 }
    | e0 :: _ =>
      let temp_dir := dirname e0
      match post.lookup "database" with
      | Option.none =>
          -- request.POST['database'] raises KeyError inside the try block,
          -- caught by `except Exception`: 500 with str(exc).splitlines()
          let msg := pyQuote ++ "database" ++ pyQuote
          { resp := .ok { status := 500, body := .jlist (splitlines msg),
                          contentType := JSONct },
            effects := [.logError msg], fs := staged.1 }
      | some dbname =>
        let sub := submit_job loader e0 temp_dir dbname callback_url foreign_calc_id
        match sub.1 with
        | .exc tb =>
            { resp := .ok { status := 500, body := .jlist (splitlines tb),
                            contentType := JSONct },
              effects := sub.2 ++ [.logError tb], fs := staged.1 }
        | .ok job =>
          match djGet db.jobs (fun j => j.id == job.id) with
          | .found calcJob =>
              { resp := .ok { status := 200,
                              body := .jparams calcJob.oqparam job.id calcJob.status,
                              contentType := JSONct },
                effects := sub.2, fs := staged.1 }
          | .notFound =>
              { resp := .error .objectDoesNotExist, effects := sub.2, fs := staged.1 }
          | .multiple =>
              { resp := .error .multipleObjects, effects := sub.2, fs := staged.1 }

/-! ## Concrete instances used by witnesses and counterexamples -/

set_option maxRecDepth 40000

/-- An executing hazard job. -/
def jobExec : OqJob :=
  { id := 1, status := "executing", job_type := "hazard", is_running := true,
    relevant := true, user_name := "alice", hazard_calculation := Option.none,
    oqparam := [] }

/-- A complete hazard job. -/
def jobDone : OqJob :=
  { id := 2, status := "complete", job_type := "hazard", is_running := false,
    relevant := true, user_name := "alice", hazard_calculation := Option.none,
    oqparam := [("calculation_mode", "classical")] }

/-- An INFO log line of job 1. -/
def logInfo1 : LogEntry :=
  { job_id := 1, timestamp := "2015-06-01T10:00:00.000000", level := "INFO",
    process := "p1", message := "started" }

/-- A second INFO log line of job 1. -/
def logInfo2 : LogEntry :=
  { job_id := 1, timestamp := "2015-06-01T10:00:01.000000", level := "INFO",
    process := "p1", message := "working" }

/-- A CRITICAL log line of job 1 with a two-line message. -/
def logCrit1 : LogEntry :=
  { job_id := 1, timestamp := "2015-06-01T10:00:02.000000", level := "CRITICAL",
    process := "p1", message := "boom\nline2" }

/-- The empty file system. -/
def fs0 : Fs := { dirs := [], files := [] }

/-! ## C2 — get_traceback -/

/-- A database whose job 1 exists but has no CRITICAL log entry. -/
def dbC2 : Db := { jobs := [jobExec], logs := [logInfo1], outputs := [], jobparams := [] }

/-- Claim C2, counterexample: for an existing job with no CRITICAL log
entry, `get_traceback` does not answer 404 — the unguarded
`Log.objects.get` raises `DoesNotExist`, which escapes the handler. -/
theorem c2_counterexample :
    (dbC2.jobs.filter (fun j => j.id == 1)).length = 1
    ∧ dbC2.logs.filter (fun l => l.job_id == 1 && l.level == "CRITICAL") = []
    ∧ get_traceback dbC2 1 = .error .objectDoesNotExist
    ∧ get_traceback dbC2 1 ≠ .ok http404 := by decide

/-- Claim C2 as amended: `get_traceback` answers 404 when the job does not
exist; for an existing job with exactly one CRITICAL entry it answers 200
with the message split into lines; for an existing job with no CRITICAL
entry the `DoesNotExist` of the log lookup escapes the handler instead of
becoming a 404. -/
theorem c2_traceback_amended (db : Db) (cid : Nat) :
    (db.jobs.filter (fun j => j.id == cid) = [] → get_traceback db cid = .ok http404)
    ∧ (∀ j lg, db.jobs.filter (fun j2 => j2.id == cid) = [j] →
        db.logs.filter (fun l => l.job_id == cid && l.level == "CRITICAL") = [lg] →
        get_traceback db cid
          = .ok { status := 200, body := .jlist (splitlines lg.message),
                  contentType := JSONct })
    ∧ (∀ j, db.jobs.filter (fun j2 => j2.id == cid) = [j] →
        db.logs.filter (fun l => l.job_id == cid && l.level == "CRITICAL") = [] →
        get_traceback db cid = .error .objectDoesNotExist) := by
  refine ⟨fun h => ?_, fun j lg h1 h2 => ?_, fun j h1 h2 => ?_⟩ <;>
    simp only [get_traceback, djGet] <;> first
      | rw [h]
      | rw [h1, h2]

/-- A database whose job 1 has exactly one CRITICAL log entry. -/
def dbC2w : Db :=
  { jobs := [jobExec], logs := [logInfo1, logCrit1], outputs := [], jobparams := [] }

/-- Witness for `c2_traceback_amended`: each of its three hypotheses
branches is realised at a concrete database. -/
theorem c2_traceback_amended_witness :
    get_traceback dbC2w 9 = .ok http404
    ∧ get_traceback dbC2w 1
        = .ok { status := 200, body := .jlist ["boom", "line2"], contentType := JSONct }
    ∧ get_traceback dbC2 1 = .error .objectDoesNotExist := by
  refine ⟨?_, ?_, ?_⟩
  · exact (c2_traceback_amended dbC2w 9).1 (by decide)
  · exact (c2_traceback_amended dbC2w 1).2.1 jobExec logCrit1 (by decide) (by decide)
  · exact (c2_traceback_amended dbC2 1).2.2 jobExec (by decide) (by decide)

/-! ## C3 — get_log_slice and missing jobs -/

/-- A database with jobs 1 and 2 but no job 7, and a log line that does
not belong to job 7. -/
def dbC3 : Db :=
  { jobs := [jobExec, jobDone], logs := [logInfo1], outputs := [], jobparams := [] }

/-- Claim C3 names a code bug: `get_log_slice` can never answer 404 — its
`except ObjectDoesNotExist` is unreachable because `filter` and queryset
slicing never raise it — so a request for a nonexistent job yields 200
with an empty list.  First conjunct: every response of the handler has
status 200.  Remaining conjuncts: evaluation at the failing input (job 7
does not exist). -/
theorem c3_log_slice_never_404 :
    (∀ (db : Db) (cid : Nat) (start stop : PyVal) (r : HttpResp),
        get_log_slice db cid start stop = .ok r → r.status = 200)
    ∧ dbC3.jobs.filter (fun j => j.id == 7) = []
    ∧ get_log_slice dbC3 7 PyVal.none PyVal.none
        = .ok { status := 200, body := .jtable [], contentType := JSONct } := by
  refine ⟨fun db cid start stop r h => ?_, by decide, by decide⟩
  unfold get_log_slice at h
  cases hrows : logRows db cid start stop with
  | none => rw [hrows] at h; cases h
  | some rows => rw [hrows] at h; cases h; rfl

/-- Witness for `c3_log_slice_never_404`: its quantified conjunct applied
at a concrete call whose hypothesis is discharged by evaluation. -/
theorem c3_log_slice_witness :
    ({ status := 200, body := .jtable [], contentType := JSONct } : HttpResp).status = 200 :=
  c3_log_slice_never_404.1 dbC3 7 PyVal.none PyVal.none
    { status := 200, body := .jtable [], contentType := JSONct } (by decide)

/-! ## C10 — falsy stop is normalised to "no upper bound" -/

/-- Claim C10: on an existing job, a falsy `stop` (None, integer 0 or the
empty string) is normalised by `stop = stop or None` to "no upper bound",
so the handler returns the whole log from `start` onward. -/
theorem c10_falsy_stop (db : Db) (cid a : Nat) (stop : PyVal)
    (hjob : db.jobs.filter (fun j => j.id == cid) ≠ [])
    (hstop : truthy stop = false) :
    get_log_slice db cid (.int a) stop
      = .ok { status := 200,
              body := .jtable
                (((db.logs.filter (fun l => l.job_id == cid)).drop a).map log_to_json),
              contentType := JSONct } := by
  have hstart : pyOr (.int a) (.int 0) = .int a := by
    by_cases h : a = 0
    · subst h; rfl
    · simp [pyOr, truthy, h]
  have hstop2 : pyOr stop PyVal.none = PyVal.none := by simp [pyOr, hstop]
  simp only [get_log_slice, logRows]
  rw [hstart, hstop2]
  rfl

/-- A database for the C10 witness: job 1 with two log lines. -/
def dbC10 : Db :=
  { jobs := [jobExec], logs := [logInfo1, logInfo2], outputs := [], jobparams := [] }

/-- Witness for `c10_falsy_stop`: `stop = 0` on a job with two log lines
and `start = 1` returns the second line (not the empty slice `[1:0)`). -/
theorem c10_falsy_stop_witness :
    dbC10.jobs.filter (fun j => j.id == 1) ≠ []
    ∧ truthy (PyVal.int 0) = false
    ∧ get_log_slice dbC10 1 (.int 1) (.int 0)
        = .ok { status := 200, body := .jtable [log_to_json logInfo2],
                contentType := JSONct } := by
  refine ⟨by decide, by decide, ?_⟩
  exact c10_falsy_stop dbC10 1 1 (.int 0) (by decide) (by decide)

/-! ## C9 — concatenation of adjacent log slices -/

/-- A database for the C9 counterexample: job 1 with a single log line. -/
def dbC9 : Db :=
  { jobs := [jobExec], logs := [logInfo1], outputs := [], jobparams := [] }

/-- Claim C9, counterexample at `n = 0`: job 1 has `1 ≥ 2·0` log entries,
yet `log_slice(1,0,0) ++ log_slice(1,0,0)` differs from
`log_slice(1,0,0)`, because the falsy stop `0` is normalised to "no upper
bound" and each call returns the whole (non-empty) log. -/
theorem c9_counterexample :
    dbC9.jobs.filter (fun j => j.id == 1) ≠ []
    ∧ 2 * 0 ≤ (dbC9.logs.filter (fun l => l.job_id == 1)).length
    ∧ ¬ ((logRows dbC9 1 (.int 0) (.int 0)).getD []
          ++ (logRows dbC9 1 (.int 0) (.int (2 * 0))).getD []
        = (logRows dbC9 1 (.int 0) (.int (2 * 0))).getD []) := by decide

/-- Claim C9 as amended: for `n ≥ 1` (so that the bounds are truthy and
escape the falsy-stop normalisation), the concatenation of the `[0:n)` and
`[n:2n)` slices equals the `[0:2n)` slice; and a slice query is idempotent
(the handler is a pure function of the database). -/
theorem c9_log_slice_concat (db : Db) (cid n : Nat) (hn : 1 ≤ n)
    (hlen : 2 * n ≤ (db.logs.filter (fun l => l.job_id == cid)).length) :
    ((logRows db cid (.int 0) (.int n)).getD []
        ++ (logRows db cid (.int n) (.int (2 * n))).getD []
      = (logRows db cid (.int 0) (.int (2 * n))).getD [])
    ∧ logRows db cid (.int 0) (.int n) = logRows db cid (.int 0) (.int n) := by
  refine ⟨?_, rfl⟩
  have hn0 : n ≠ 0 := by omega
  have h2n0 : 2 * n ≠ 0 := by omega
  have key : ∀ a b : Nat, b ≠ 0 → logRows db cid (.int a) (.int b)
      = some (((db.logs.filter (fun l => l.job_id == cid)).take b).drop a) := by
    intro a b hb
    have hstart : pyOr (.int a) (.int 0) = .int a := by
      by_cases h : a = 0
      · subst h; rfl
      · simp [pyOr, truthy, h]
    have hstop : pyOr (.int b) PyVal.none = .int b := by simp [pyOr, truthy, hb]
    simp only [logRows]
    rw [hstart, hstop]
    rfl
  rw [key 0 n hn0, key n (2 * n) h2n0, key 0 (2 * n) h2n0]
  simp only [Option.getD_some, List.drop_zero]
  set L := db.logs.filter (fun l => l.job_id == cid) with hL
  have h1 : (L.take (2 * n)).take n = L.take n := by
    rw [List.take_take, Nat.min_eq_left (by omega)]
  conv_rhs => rw [← List.take_append_drop n (L.take (2 * n)), h1]

/-- Witness for `c9_log_slice_concat` at `n = 1` on a job with two log
lines. -/
theorem c9_log_slice_concat_witness :
    1 ≤ 1
    ∧ 2 * 1 ≤ (dbC10.logs.filter (fun l => l.job_id == 1)).length
    ∧ ((logRows dbC10 1 (.int 0) (.int 1)).getD []
          ++ (logRows dbC10 1 (.int 1) (.int (2 * 1))).getD []
        = (logRows dbC10 1 (.int 0) (.int (2 * 1))).getD []) := by
  refine ⟨by decide, by decide, ?_⟩
  exact (c9_log_slice_concat dbC10 1 1 (by decide) (by decide)).1

/-! ## C6 — export on a missing output or an incomplete job -/

/-- An output of the complete job. -/
def outDone : Output :=
  { id := 5, output_type := "hazard_curve", display_name := "curves", oq_job := jobDone }

/-- An output that already exists for the still-executing job. -/
def outExec : Output :=
  { id := 6, output_type := "hazard_curve", display_name := "curves", oq_job := jobExec }

/-- A database with outputs for a complete and for an executing job. -/
def dbC6 : Db :=
  { jobs := [jobExec, jobDone], logs := [], outputs := [outDone, outExec], jobparams := [] }

/-- Claim C6: `get_result` answers a bare 404 (leaving the file system
untouched) whenever no Output has the requested id or the owning job is
not complete — in particular outputs of a still-executing job are never
exportable. -/
theorem c6_export_requires_complete (db : Db) (etype dload : Option String)
    (rid : Nat) (tmpname : String)
    (exporter : Nat → String → String → Option String)
    (expFiles : List (String × String)) (fs : Fs)
    (hwf : (db.outputs.filter (fun o => o.id == rid)).length ≤ 1)
    (hno : ∀ o ∈ db.outputs, o.id = rid → o.oq_job.status ≠ "complete") :
    get_result db etype dload rid tmpname exporter expFiles fs = (.ok http404, fs) := by
  unfold get_result djGet
  cases hfo : db.outputs.filter (fun o => o.id == rid) with
  | nil => rfl
  | cons o rest =>
    cases rest with
    | cons o2 r2 => rw [hfo] at hwf; simp at hwf
    | nil =>
      have ho : o ∈ db.outputs ∧ (o.id == rid) = true :=
        List.mem_filter.mp (hfo ▸ List.mem_cons_self o [])
      have hst : o.oq_job.status ≠ "complete" := hno o ho.1 (by simpa using ho.2)
      simp only []
      rw [if_pos (by simpa [bne] using hst)]

/-- Witness for `c6_export_requires_complete`: result 6 exists but belongs
to the executing job 1, so export answers 404 and creates nothing. -/
theorem c6_export_requires_complete_witness :
    (dbC6.outputs.filter (fun o => o.id == 6)).length ≤ 1
    ∧ get_result dbC6 Option.none Option.none 6 "/tmp/w6"
        (fun _ d _ => some (d ++ "/x.xml")) [("/tmp/w6/x.xml", "<x/>")] fs0
      = (.ok http404, fs0) := by
  refine ⟨by decide, ?_⟩
  exact c6_export_requires_complete dbC6 Option.none Option.none 6 "/tmp/w6" _ _ fs0
    (by decide) (by decide)

/-! ## C5 — download-flag resolution -/

/-- An exporter that writes `x.xml` into the workspace. -/
def expXml : Nat → String → String → Option String := fun _ d _ => some (d ++ "/x.xml")

/-- Claim C5, counterexample: with `dload` absent and the caller
*explicitly passing the default* `export_type=xml`, the code still sets
the attachment disposition (it tests presence of the parameter, not
non-defaultness), while the claim demands an inline response. -/
theorem c5_counterexample :
    resolveExportType (some "xml") = DEFAULT_EXPORT_TYPE
    ∧ (get_result dbC6 (some "xml") Option.none 5 "/tmp/w5" expXml
        [("/tmp/w5/x.xml", "<q/>")] fs0).1
      = .ok { status := 200, body := .text "<q/>", contentType := "application/xml",
              contentLength := some 4,
              contentDisposition := some "attachment; filename=output-5-x.xml" } := by
  decide

/-- Claim C5 as amended: on the successful export path the attachment
disposition is set iff `dload == "true"`, or `dload` is absent and an
`export_type` parameter was explicitly supplied — whatever its value,
including the default. -/
theorem c5_download_flag (db : Db) (etype dload : Option String) (rid : Nat)
    (tmpname : String) (exporter : Nat → String → String → Option String)
    (expFiles : List (String × String)) (fs : Fs) (o : Output) (p data : String)
    (hout : db.outputs.filter (fun x => x.id == rid) = [o])
    (hcomplete : o.oq_job.status = "complete")
    (hexp : exporter rid tmpname (resolveExportType etype) = some p)
    (hread : (expFiles ++ fs.files).lookup p = some data) :
    ∃ r, (get_result db etype dload rid tmpname exporter expFiles fs).1 = .ok r
      ∧ r.contentDisposition.isSome
          = (dload == some "true" || (dload == Option.none && etype.isSome)) := by
  unfold get_result djGet
  rw [hout]
  simp only [hcomplete, bne_self_eq_false, Bool.false_eq_true, if_false]
  simp only [hexp, hread]
  refine ⟨_, rfl, ?_⟩
  cases dload with
  | none =>
    cases etype <;> simp [resolveDownload]
  | some d =>
    by_cases hd : d = "true" <;> simp [resolveDownload, hd]

/-- Witness for `c5_download_flag`: `dload="true"` on the complete job's
result 5 yields an attachment disposition. -/
theorem c5_download_flag_witness :
    dbC6.outputs.filter (fun x => x.id == 5) = [outDone]
    ∧ outDone.oq_job.status = "complete"
    ∧ (∃ r, (get_result dbC6 Option.none (some "true") 5 "/tmp/w5b" expXml
          [("/tmp/w5b/x.xml", "<q/>")] fs0).1 = .ok r
        ∧ r.contentDisposition.isSome
            = ((some "true" : Option String) == some "true"
                || ((some "true" : Option String) == Option.none
                    && (Option.none : Option String).isSome))) := by
  refine ⟨by decide, by decide, ?_⟩
  exact c5_download_flag dbC6 Option.none (some "true") 5 "/tmp/w5b" expXml
    [("/tmp/w5b/x.xml", "<q/>")] fs0 outDone "/tmp/w5b/x.xml" "<q/>"
    (by decide) (by decide) (by decide) (by decide)

/-! ## C1 — workspace cleanup in get_result -/

/-- An exporter that supports no format at all (always returns `None`). -/
def expUnsupported : Nat → String → String → Option String := fun _ _ _ => Option.none

/-- Claim C1, counterexample: on the unsupported-format path (`core.export`
returned `None`) `get_result` answers 404 but the freshly created
workspace directory survives the call — the `try/finally` that deletes it
is entered only after this early return. -/
theorem c1_counterexample :
    (get_result dbC6 Option.none Option.none 5 "/tmp/w1" expUnsupported [] fs0).1
      = .ok { status := 404,
              body := .text
                "export_type=xml is not supported for output_type=hazard_curve" }
    ∧ "/tmp/w1" ∈ (get_result dbC6 Option.none Option.none 5 "/tmp/w1"
        expUnsupported [] fs0).2.dirs := by decide

/-- No path survives `rmtree` under its own directory name. -/
theorem rmtree_dir_gone (fs : Fs) (d : String) : d ∉ (rmtree fs d).dirs := by
  intro h
  have := List.of_mem_filter h
  simp at this

/-- Claim C1 as amended: provided the exporter returns a path (for every
requested format), the scoped workspace directory is deleted before
control returns on every exit path — success or a failure to read the
exported file; the guarantee does not extend to the unsupported-format
path, on which the directory leaks (see `c1_counterexample`). -/
theorem c1_workspace_cleanup (db : Db) (etype dload : Option String) (rid : Nat)
    (tmpname : String) (exporter : Nat → String → String → Option String)
    (expFiles : List (String × String)) (fs : Fs)
    (htmp : tmpname ∉ fs.dirs)
    (hexp : ∀ et, exporter rid tmpname et ≠ Option.none) :
    tmpname ∉ (get_result db etype dload rid tmpname exporter expFiles fs).2.dirs := by
  unfold get_result djGet
  cases hfo : db.outputs.filter (fun o => o.id == rid) with
  | nil => exact htmp
  | cons o rest =>
    cases rest with
    | cons o2 r2 => exact htmp
    | nil =>
      simp only []
      by_cases hst : (o.oq_job.status != "complete") = true
      · rw [if_pos hst]; exact htmp
      · rw [if_neg hst]
        cases hexpv : exporter rid tmpname (resolveExportType etype) with
        | none => exact absurd hexpv (hexp _)
        | some p =>
          cases hlook : List.lookup p (expFiles ++ fs.files) with
          | none =>
            simp only [hlook]
            exact rmtree_dir_gone _ tmpname
          | some data =>
            simp only [hlook]
            exact rmtree_dir_gone _ tmpname

/-- Witness for `c1_workspace_cleanup`: a successful export of result 5
leaves no trace of the workspace `/tmp/w2`. -/
theorem c1_workspace_cleanup_witness :
    ("/tmp/w2" ∉ fs0.dirs)
    ∧ "/tmp/w2" ∉ (get_result dbC6 Option.none Option.none 5 "/tmp/w2" expXml
        [("/tmp/w2/x.xml", "<z/>")] fs0).2.dirs := by
  refine ⟨by decide, ?_⟩
  exact c1_workspace_cleanup dbC6 Option.none Option.none 5 "/tmp/w2" expXml
    [("/tmp/w2/x.xml", "<z/>")] fs0 (by decide) (fun et h => Option.noConfusion h)

/-! ## C7 — dispatch with zero candidate files -/

/-- The staged-path list of the move loop: exactly the workspace paths of
the uploads whose name is among the candidates, in upload order, and
independent of the starting file system. -/
theorem movedFiles_paths (td : String) (cand : List String) (fs : Fs)
    (files : List UploadedFile) :
    (movedFiles td cand fs files).2
      = (files.filter (fun f => cand.contains f.name)).map (fun f => td ++ "/" ++ f.name) := by
  induction files generalizing fs with
  | nil => rfl
  | cons f rest ih =>
    by_cases h : f.name ∈ cand
    · simp [movedFiles, h, List.filter_cons, ih]
    · simp [movedFiles, h, List.filter_cons, ih]

/-- Claim C7: when staging runs without an exception but no uploaded file
matches a candidate name, `run_calc` answers 500 with the diagnostic that
spells out the candidate tuple, and no callback notification is emitted —
in contrast with a staging exception (conjunct 5) or a loader failure
(conjunct 6), both of which notify the callback. -/
theorem c7_no_candidate_files (db : Db) (fs : Fs) (tmpname : String)
    (post : List (String × String)) (files : List UploadedFile)
    (extractZip : UploadedFile → List String → List String)
    (loader : String → SafeRes OqJob)
    (hnoarch : files.find? (fun f => f.key == "archive") = Option.none)
    (hnomatch : ∀ f ∈ files, (runCandidates post).contains f.name = false) :
    (run_calc db fs tmpname post files extractZip Option.none loader).resp
        = .ok { status := 500, body := .jlist [noCandMsg (runCandidates post)],
                contentType := JSONct }
    ∧ (run_calc db fs tmpname post files extractZip Option.none loader).effects
        = [.logError (noCandMsg (runCandidates post))]
    ∧ (∀ u0 st e0, Effect.updateCalculation u0 st e0
        ∉ (run_calc db fs tmpname post files extractZip Option.none loader).effects)
    ∧ noCandMsg (runCandidates post)
        = "Could not find any file of the form " ++ pyStrTuple (runCandidates post)
    ∧ (∀ tb, Effect.updateCalculation (post.lookup "callback_url") "failed" tb
        ∈ (run_calc db fs tmpname post files extractZip (some tb) loader).effects)
    ∧ (∀ (files2 : List UploadedFile) (dbname e0 : String) (rest : List String)
          (tb : String),
        (_prepare_job fs tmpname files2 (runCandidates post) extractZip).2 = e0 :: rest →
        post.lookup "database" = some dbname →
        loader (pathJoin (dirname e0) e0) = .exc tb →
        Effect.updateCalculation (post.lookup "callback_url") "failed" tb
          ∈ (run_calc db fs tmpname post files2 extractZip Option.none loader).effects) := by
  have hstaged : (_prepare_job fs tmpname files (runCandidates post) extractZip).2 = [] := by
    unfold _prepare_job
    rw [hnoarch]
    rw [movedFiles_paths]
    rw [List.filter_eq_nil_iff.mpr (by intro f hf; simpa using hnomatch f hf)]
    rfl
  refine ⟨?_, ?_, ?_, rfl, ?_, ?_⟩
  · unfold run_calc
    simp only [hstaged]
  · unfold run_calc
    simp only [hstaged]
  · intro u0 st e0
    unfold run_calc
    simp only [hstaged]
    simp
  · intro tb
    unfold run_calc
    simp
  · intro files2 dbname e0 rest tb hstaged2 hdb hload
    unfold run_calc
    simp only [hstaged2, hdb, submit_job, hload]
    simp

/-- A non-matching upload for the C7 witness. -/
def fileOther : UploadedFile := { key := "f1", name := "readme.txt", tmpPath := "/up/1" }

/-- The POST dictionary of the C7 witness (a callback URL, no risk
routing parameters). -/
def postC7 : List (String × String) := [("callback_url", "http://cb.example/x")]

/-- Witness for `c7_no_candidate_files`: a hazard submission whose only
upload is `readme.txt`. -/
theorem c7_no_candidate_files_witness :
    [fileOther].find? (fun f => f.key == "archive") = Option.none
    ∧ (∀ f ∈ [fileOther], (runCandidates postC7).contains f.name = false)
    ∧ (run_calc dbC6 fs0 "/tmp/w7" postC7 [fileOther]
        (fun _ _ => []) Option.none (fun _ => .exc "tb")).resp
      = .ok { status := 500, body := .jlist [noCandMsg (runCandidates postC7)],
              contentType := JSONct }
    ∧ (run_calc dbC6 fs0 "/tmp/w7" postC7 [fileOther]
        (fun _ _ => []) Option.none (fun _ => .exc "tb")).effects
      = [.logError (noCandMsg (runCandidates postC7))] := by
  refine ⟨by decide, by decide, ?_, ?_⟩
  · exact (c7_no_candidate_files dbC6 fs0 "/tmp/w7" postC7 [fileOther]
      (fun _ _ => []) (fun _ => .exc "tb") (by decide) (by decide)).1
  · exact (c7_no_candidate_files dbC6 fs0 "/tmp/w7" postC7 [fileOther]
      (fun _ _ => []) (fun _ => .exc "tb") (by decide) (by decide)).2.1

/-! ## C4 — job listing -/

/-- Claim C4: the rows of `_get_calcs` are exactly the description
parameters passing the conjunction of the owner restriction and the
optional filters, ordered by descending internal row id; with an `id`
filter the result collapses to at most one row (under the database
invariant of one description parameter per job), and `calc` then returns
a single object instead of a list. -/
theorem c4_list_jobs (db : Db) (q : List (String × String)) (u : String)
    (id : Option Nat) (bu : String) :
    (∃ jps : List JobParam,
        jps.Perm (db.jobparams.filter (calcsSel q u id))
        ∧ List.Pairwise descId jps
        ∧ _get_calcs db q u id = jps.map calcRow)
    ∧ (∀ r ∈ _get_calcs db q u id, ∃ jp, jp ∈ db.jobparams
          ∧ jp.name = "description" ∧ jp.job.user_name = u
          ∧ idPass id jp ∧ jobTypePass q jp ∧ isRunningPass q jp ∧ relevantPass q jp
          ∧ r = calcRow jp)
    ∧ (∀ jp ∈ db.jobparams, calcsSel q u id jp → calcRow jp ∈ _get_calcs db q u id)
    ∧ (∀ i, id = some i →
        (db.jobparams.filter (fun jp => jp.name == "description" && jp.job.id == i)).length ≤ 1 →
        (_get_calcs db q u id).length ≤ 1)
    ∧ (∀ x, id.isSome → _get_calcs db q u id = [x] →
        calc_view db q bu u id
          = .ok { status := 200, body := .jcalc (calcEntry bu x), contentType := JSONct }) := by
  refine ⟨⟨List.insertionSort descId (db.jobparams.filter (calcsSel q u id)),
      List.perm_insertionSort descId _, List.sorted_insertionSort descId _, rfl⟩,
    ?_, ?_, ?_, ?_⟩
  · intro r hr
    unfold _get_calcs at hr
    obtain ⟨jp, hjp, hrow⟩ := List.mem_map.mp hr
    have hjp2 : jp ∈ db.jobparams.filter (calcsSel q u id) :=
      (List.perm_insertionSort descId _).mem_iff.mp hjp
    obtain ⟨hmem, hsel⟩ := List.mem_filter.mp hjp2
    refine ⟨jp, hmem, ?_, ?_, ?_, ?_, ?_, ?_, hrow.symm⟩ <;>
      · unfold calcsSel baseSel at hsel
        simp only [Bool.and_eq_true, beq_iff_eq] at hsel
        tauto
  · intro jp hmem hsel
    unfold _get_calcs
    exact List.mem_map_of_mem calcRow
      ((List.perm_insertionSort descId _).mem_iff.mpr (List.mem_filter.mpr ⟨hmem, hsel⟩))
  · intro i hi hwf
    subst hi
    unfold _get_calcs
    rw [List.length_map, (List.perm_insertionSort descId _).length_eq]
    calc (db.jobparams.filter (calcsSel q u (some i))).length
        = db.jobparams.countP (calcsSel q u (some i)) :=
          (List.countP_eq_length_filter _ _).symm
      _ ≤ db.jobparams.countP (fun jp => jp.name == "description" && jp.job.id == i) := by
          refine List.countP_mono_left fun jp _ hsel => ?_
          unfold calcsSel baseSel idPass at hsel
          simp only [Bool.and_eq_true, beq_iff_eq] at hsel ⊢
          tauto
      _ = (db.jobparams.filter (fun jp => jp.name == "description" && jp.job.id == i)).length :=
          List.countP_eq_length_filter _ _
      _ ≤ 1 := hwf
  · intro x hi hone
    unfold calc_view
    rw [hone]
    cases id with
    | none => cases hi
    | some i => rfl

/-- Two description parameters of two jobs of the same user, and one of a
different user, for the C4 witness. -/
def jpA : JobParam := { id := 11, name := "description", value := "first", job := jobExec }

/-- Description parameter of the complete job. -/
def jpB : JobParam := { id := 12, name := "description", value := "second", job := jobDone }

/-- Description parameter owned by another user. -/
def jpC : JobParam :=
  { id := 13, name := "description", value := "foreign",
    job := { jobExec with id := 3, user_name := "mallory" } }

/-- A database with three description parameters for the C4 witness. -/
def dbC4 : Db := { jobs := [jobExec, jobDone], logs := [], outputs := [], jobparams := [jpA, jpB, jpC] }

/-- Witness for `c4_list_jobs`: the listing of user alice with the
`id = 2` filter collapses to the single row of job 2 and `calc` returns
it as a single object. -/
theorem c4_list_jobs_witness :
    (dbC4.jobparams.filter
        (fun jp => jp.name == "description" && jp.job.id == 2)).length ≤ 1
    ∧ _get_calcs dbC4 [] "alice" (some 2) = [calcRow jpB]
    ∧ (_get_calcs dbC4 [] "alice" (some 2)).length ≤ 1
    ∧ calc_view dbC4 [] "http://h" "alice" (some 2)
        = .ok { status := 200, body := .jcalc (calcEntry "http://h" (calcRow jpB)),
                contentType := JSONct } := by
  refine ⟨by decide, by decide, ?_, ?_⟩
  · exact (c4_list_jobs dbC4 [] "alice" (some 2) "http://h").2.2.2.1 2 rfl (by decide)
  · exact (c4_list_jobs dbC4 [] "alice" (some 2) "http://h").2.2.2.2 (calcRow jpB)
      (by decide) (by decide)

/-! ## C8 — staging moves uploads into the workspace -/

/-- Unfolding `List.lookup` over a cons cell of string pairs. -/
theorem lookup_cons_pair (k v p : String) (l : List (String × String)) :
    (((k, v) :: l).lookup p) = if p = k then some v else l.lookup p := by
  by_cases h : p = k
  · subst h; simp [List.lookup]
  · have hb : (p == k) = false := by simp [h]
    simp [List.lookup, hb, h]

/-- After filtering out the key `s`, looking `s` up fails. -/
theorem lookup_filter_self (l : List (String × String)) (s : String) :
    (l.filter (fun q => q.1 != s)).lookup s = Option.none := by
  induction l with
  | nil => rfl
  | cons a t ih =>
    obtain ⟨k, v⟩ := a
    by_cases h : k = s
    · simp [List.filter_cons, h, ih]
    · simp only [List.filter_cons]
      rw [if_pos (by simpa using h)]
      rw [lookup_cons_pair]
      rw [if_neg (fun e => h e.symm)]
      exact ih

/-- Filtering out the key `s` does not change the lookup of `p ≠ s`. -/
theorem lookup_filter_other (l : List (String × String)) (s p : String) (hp : p ≠ s) :
    (l.filter (fun q => q.1 != s)).lookup p = l.lookup p := by
  induction l with
  | nil => rfl
  | cons a t ih =>
    obtain ⟨k, v⟩ := a
    by_cases h : k = s
    · subst h
      simp only [List.filter_cons]
      rw [if_neg (by simp)]
      rw [ih, lookup_cons_pair, if_neg hp]
    · simp only [List.filter_cons]
      rw [if_pos (by simpa using h)]
      rw [lookup_cons_pair, lookup_cons_pair, ih]

/-- The effect of `shutil.move` on lookups: the destination now holds the
moved content, the source is gone, everything else is untouched. -/
theorem fsMove_lookup (fs : Fs) (src dst p c : String)
    (hsrc : fs.files.lookup src = some c) :
    (fsMove fs src dst).files.lookup p
      = if p = dst then some c
        else if p = src then Option.none
        else fs.files.lookup p := by
  unfold fsMove
  rw [hsrc]
  simp only []
  rw [lookup_cons_pair]
  by_cases h1 : p = dst
  · rw [if_pos h1, if_pos h1]
  · rw [if_neg h1, if_neg h1]
    by_cases h2 : p = src
    · subst h2
      rw [if_pos rfl]
      exact lookup_filter_self _ _
    · rw [if_neg h2]
      exact lookup_filter_other _ _ _ h2

/-- `shutil.move` does not touch directories. -/
theorem fsMove_dirs (fs : Fs) (src dst : String) : (fsMove fs src dst).dirs = fs.dirs := by
  unfold fsMove
  cases fs.files.lookup src <;> rfl

/-- The move loop does not touch directories. -/
theorem movedFiles_dirs (td : String) (cand : List String) :
    ∀ (files : List UploadedFile) (fs : Fs),
      (movedFiles td cand fs files).1.dirs = fs.dirs := by
  intro files
  induction files with
  | nil => intro fs; rfl
  | cons g rest ih =>
    intro fs
    simp only [movedFiles]
    rw [ih, fsMove_dirs]

/-- A path that is neither a source nor a target of the move loop keeps
its lookup. -/
theorem movedFiles_lookup_untouched (td : String) (cand : List String) (p : String) :
    ∀ (files : List UploadedFile) (fs : Fs),
      (∀ g ∈ files, p ≠ g.tmpPath ∧ p ≠ td ++ "/" ++ g.name) →
      (movedFiles td cand fs files).1.files.lookup p = fs.files.lookup p := by
  intro files
  induction files with
  | nil => intro fs _; rfl
  | cons g rest ih =>
    intro fs h
    simp only [movedFiles]
    rw [ih _ (fun g2 hg2 => h g2 (List.mem_cons_of_mem _ hg2))]
    cases hc : fs.files.lookup g.tmpPath with
    | none =>
      unfold fsMove
      rw [hc]
    | some c =>
      rw [fsMove_lookup fs _ _ p c hc,
        if_neg (h g (List.mem_cons_self _ _)).2,
        if_neg (h g (List.mem_cons_self _ _)).1]

/-- Each upload processed by the move loop ends up at
`td/f.name` with its original content, and its transient source entry is
gone. -/
theorem movedFiles_moved (td : String) (cand : List String) :
    ∀ (files : List UploadedFile) (fs : Fs),
      (files.map (fun f => td ++ "/" ++ f.name)).Nodup →
      (files.map (fun f => f.tmpPath)).Nodup →
      (∀ f ∈ files, ∀ g ∈ files, f.tmpPath ≠ td ++ "/" ++ g.name) →
      (∀ f ∈ files, (fs.files.lookup f.tmpPath).isSome = true) →
      ∀ f ∈ files,
        (movedFiles td cand fs files).1.files.lookup (td ++ "/" ++ f.name)
          = fs.files.lookup f.tmpPath
        ∧ (movedFiles td cand fs files).1.files.lookup f.tmpPath = Option.none := by
  intro files
  induction files with
  | nil => intro fs _ _ _ _ f hf; cases hf
  | cons f0 rest ih =>
    intro fs htgt hsrc hdisj hex
    obtain ⟨c0, hc0⟩ : ∃ c, fs.files.lookup f0.tmpPath = some c := by
      have h0 := hex f0 (List.mem_cons_self _ _)
      cases h : fs.files.lookup f0.tmpPath
      · rw [h] at h0; cases h0
      · exact ⟨_, rfl⟩
    simp only [List.map_cons, List.nodup_cons] at htgt hsrc
    obtain ⟨htgt0, htgtr⟩ := htgt
    obtain ⟨hsrc0, hsrcr⟩ := hsrc
    have hmove : ∀ p, (fsMove fs f0.tmpPath (td ++ "/" ++ f0.name)).files.lookup p
        = if p = td ++ "/" ++ f0.name then some c0
          else if p = f0.tmpPath then Option.none
          else fs.files.lookup p :=
      fun p => fsMove_lookup fs _ _ p c0 hc0
    have hne00 : f0.tmpPath ≠ td ++ "/" ++ f0.name :=
      hdisj f0 (List.mem_cons_self _ _) f0 (List.mem_cons_self _ _)
    have hex1 : ∀ g ∈ rest,
        (((fsMove fs f0.tmpPath (td ++ "/" ++ f0.name)).files.lookup g.tmpPath)).isSome
          = true := by
      intro g hg
      have hgs : g.tmpPath ≠ f0.tmpPath := by
        intro e
        apply hsrc0
        rw [← e]
        exact List.mem_map_of_mem _ hg
      rw [hmove]
      rw [if_neg (hdisj g (List.mem_cons_of_mem _ hg) f0 (List.mem_cons_self _ _))]
      rw [if_neg hgs]
      exact hex g (List.mem_cons_of_mem _ hg)
    have hdisjr : ∀ f ∈ rest, ∀ g ∈ rest, f.tmpPath ≠ td ++ "/" ++ g.name :=
      fun f hf g hg =>
        hdisj f (List.mem_cons_of_mem _ hf) g (List.mem_cons_of_mem _ hg)
    have IH := ih (fsMove fs f0.tmpPath (td ++ "/" ++ f0.name)) htgtr hsrcr hdisjr hex1
    intro f hf
    rcases List.mem_cons.mp hf with rfl | hfr
    · constructor
      · simp only [movedFiles]
        rw [movedFiles_lookup_untouched td cand _ rest _ ?_]
        · rw [hmove, if_pos rfl, hc0]
        · intro g hg
          refine ⟨(hdisj g (List.mem_cons_of_mem _ hg) f (List.mem_cons_self _ _)).symm, ?_⟩
          intro e
          apply htgt0
          rw [e]
          exact List.mem_map_of_mem _ hg
      · simp only [movedFiles]
        rw [movedFiles_lookup_untouched td cand _ rest _ ?_]
        · rw [hmove, if_neg hne00, if_pos rfl]
        · intro g hg
          refine ⟨?_, hdisj f (List.mem_cons_self _ _) g (List.mem_cons_of_mem _ hg)⟩
          intro e
          apply hsrc0
          rw [e]
          exact List.mem_map_of_mem _ hg
    · obtain ⟨IH1, IH2⟩ := IH f hfr
      constructor
      · have hfs : f.tmpPath ≠ f0.tmpPath := by
          intro e
          apply hsrc0
          rw [← e]
          exact List.mem_map_of_mem _ hfr
        simp only [movedFiles]
        rw [IH1, hmove]
        rw [if_neg (hdisj f (List.mem_cons_of_mem _ hfr) f0 (List.mem_cons_self _ _))]
        rw [if_neg hfs]
      · simp only [movedFiles]
        rw [IH2]

/-- Claim C8: a non-archive staging call moves (not copies) every uploaded
file from its transient path into the freshly created workspace under its
original client name — afterwards the workspace path holds the original
content and the transient path is gone — and the returned list holds the
workspace path of a file iff its name is among the candidate names. -/
theorem c8_prepare_job_moves (fs : Fs) (temp_dir : String)
    (files : List UploadedFile) (candidates : List String)
    (extractZip : UploadedFile → List String → List String)
    (hnoarch : files.find? (fun f => f.key == "archive") = Option.none)
    (htgt : (files.map (fun f => temp_dir ++ "/" ++ f.name)).Nodup)
    (hsrc : (files.map (fun f => f.tmpPath)).Nodup)
    (hdisj : ∀ f ∈ files, ∀ g ∈ files, f.tmpPath ≠ temp_dir ++ "/" ++ g.name)
    (hex : ∀ f ∈ files, (fs.files.lookup f.tmpPath).isSome = true) :
    (_prepare_job fs temp_dir files candidates extractZip).2
        = (files.filter (fun f => candidates.contains f.name)).map
            (fun f => temp_dir ++ "/" ++ f.name)
    ∧ temp_dir ∈ (_prepare_job fs temp_dir files candidates extractZip).1.dirs
    ∧ ∀ f ∈ files,
        (_prepare_job fs temp_dir files candidates extractZip).1.files.lookup
            (temp_dir ++ "/" ++ f.name) = fs.files.lookup f.tmpPath
        ∧ (_prepare_job fs temp_dir files candidates extractZip).1.files.lookup
            f.tmpPath = Option.none := by
  unfold _prepare_job
  rw [hnoarch]
  refine ⟨movedFiles_paths _ _ _ _, ?_, ?_⟩
  · rw [movedFiles_dirs]
    exact List.mem_cons_self _ _
  · exact movedFiles_moved temp_dir candidates files
      { fs with dirs := temp_dir :: fs.dirs } htgt hsrc hdisj hex

/-- An upload that matches the hazard candidate name, for the C8 witness. -/
def fileIni : UploadedFile :=
  { key := "job_hazard.ini", name := "job_hazard.ini", tmpPath := "/up/2" }

/-- The starting file system of the C8 witness: the two transient uploads
exist. -/
def fsC8 : Fs :=
  { dirs := [], files := [("/up/1", "notes"), ("/up/2", "[general]")] }

/-- Witness for `c8_prepare_job_moves`: staging `readme.txt` and
`job_hazard.ini` into workspace `/tmp/w8` returns exactly the ini path,
moves both files there and removes the transient copies. -/
theorem c8_prepare_job_moves_witness :
    [fileOther, fileIni].find? (fun f => f.key == "archive") = Option.none
    ∧ (∀ f ∈ [fileOther, fileIni], (fsC8.files.lookup f.tmpPath).isSome = true)
    ∧ (_prepare_job fsC8 "/tmp/w8" [fileOther, fileIni] ["job_hazard.ini", "job.ini"]
        (fun _ _ => [])).2
      = ([fileOther, fileIni].filter
          (fun f => ["job_hazard.ini", "job.ini"].contains f.name)).map
            (fun f => "/tmp/w8" ++ "/" ++ f.name)
    ∧ (∀ f ∈ [fileOther, fileIni],
        (_prepare_job fsC8 "/tmp/w8" [fileOther, fileIni] ["job_hazard.ini", "job.ini"]
            (fun _ _ => [])).1.files.lookup ("/tmp/w8" ++ "/" ++ f.name)
          = fsC8.files.lookup f.tmpPath
        ∧ (_prepare_job fsC8 "/tmp/w8" [fileOther, fileIni] ["job_hazard.ini", "job.ini"]
            (fun _ _ => [])).1.files.lookup f.tmpPath = Option.none) := by
  refine ⟨by decide, by decide, ?_, ?_⟩
  · exact (c8_prepare_job_moves fsC8 "/tmp/w8" [fileOther, fileIni]
      ["job_hazard.ini", "job.ini"] (fun _ _ => []) (by decide) (by decide) (by decide)
      (by decide) (by decide)).1
  · exact (c8_prepare_job_moves fsC8 "/tmp/w8" [fileOther, fileIni]
      ["job_hazard.ini", "job.ini"] (fun _ _ => []) (by decide) (by decide) (by decide)
      (by decide) (by decide)).2.2
